import Mathlib

/-!
Verification development for the analytics reporting dashboard.

The definitions below are shallow embeddings of the TypeScript and SQL
sources of the repository:
* `src/lib/anonymize.ts` (PII masking post-processor),
* `src/lib/secure-report.ts` (secure execution wrapper),
* `src/lib/db.ts` (transaction-scoped database unit of work),
* `src/app/api/reports/instructor-metrics/route.ts` (report row query),
* `src/tools/sql/meta_report_dependencies.sql` (dependency-graph metadata
  schema, its CHECK constraints and lineage views),
* the client-side `splitMultiValue` csv helper.

JavaScript objects with string keys are modelled as association lists in
insertion order; JavaScript `null`/`undefined` on string-typed fields is
modelled with `Option String`; thrown exceptions are modelled with
`Except`.
-/

namespace Analytics

/-- Leading whitespace removed, then trailing whitespace removed: the
character-list semantics of JavaScript `String.prototype.trim`. -/
def trimChars (l : List Char) : List Char :=
  ((l.dropWhile Char.isWhitespace).reverse.dropWhile Char.isWhitespace).reverse

/-- JavaScript `value.trim()`. -/
def jsTrim (s : String) : String :=
  String.mk (trimChars s.data)

/-- Splitting a character list on the comma character, JavaScript
`value.split(",")` semantics: the empty string yields `[""]` and
adjacent commas yield empty elements. -/
def splitCommaChars : List Char → List Char → List (List Char)
  | [], acc => [acc.reverse]
  | c :: cs, acc =>
    if c = ',' then acc.reverse :: splitCommaChars cs []
    else splitCommaChars cs (c :: acc)

/-- JavaScript `value.split(",")`. -/
def jsSplitComma (value : String) : List String :=
  (splitCommaChars value.data []).map (fun cs => String.mk cs)

/-- Dynamic values stored in a data row (`unknown` in the TypeScript
source).  A constructor for strings and for SQL `NULL` is needed because
the masking code writes those; other values are opaque. -/
inductive DVal where
  | vstr : String → DVal
  | vnull : DVal
  | vnum : Int → DVal
  | vbool : Bool → DVal
  deriving DecidableEq, Repr

/-- A data row: a JavaScript object, i.e. an association list of string
keys to values in insertion order. -/
abbrev Row := List (String × DVal)

/-- Key membership, the JavaScript `key in obj` test. -/
def rowHas (row : Row) (k : String) : Bool :=
  row.any (fun p => p.1 == k)

/-- Property lookup `obj[key]`, returning the first binding. -/
def rowGet (row : Row) (k : String) : Option DVal :=
  (row.find? (fun p => p.1 == k)).map (fun p => p.2)

/-- Property assignment `obj[key] = v` on a key that is already present:
update in place, preserving insertion order. -/
def rowSet (row : Row) (k : String) (v : DVal) : Row :=
  row.map (fun p => if p.1 == k then (p.1, v) else p)

/-- The keys of a row, in order. -/
def rowKeys (row : Row) : List String :=
  row.map (fun p => p.1)

/-- Structure `PiiColumnRule` from `src/lib/anonymize.ts`. -/
structure PiiColumnRule where
  column_name : String
  alternate_column : Option String
  redacted_value : Option String
  deriving DecidableEq, Repr

/-- The value written when a rule falls back to its redacted value:
`rule.redacted_value ?? null`. -/
def redactedDVal (rule : PiiColumnRule) : DVal :=
  match rule.redacted_value with
  | some s => DVal.vstr s
  | none => DVal.vnull

/-- The body of the `for (const rule of piiColumns)` loop in
`anonymizeRowsWithRules` (`src/lib/anonymize.ts`, lines 23-36), applied to
the partially masked `output` object. -/
def applyRule (output : Row) (rule : PiiColumnRule) : Row :=
  let targetColumn := (jsTrim rule.column_name)
  if targetColumn == "" ∨ ¬ rowHas output targetColumn then
    output
  else
    let alternateColumn := jsTrim (rule.alternate_column.getD "")
    if alternateColumn ≠ "" ∧ rowHas output alternateColumn then
      rowSet output targetColumn ((rowGet output alternateColumn).getD DVal.vnull)
    else
      rowSet output targetColumn (redactedDVal rule)

/-- Function `anonymizeRowsWithRules` from `src/lib/anonymize.ts`, lines 11-40. -/
def anonymizeRowsWithRules (rows : List Row) (piiColumns : List PiiColumnRule)
    (enabled : Bool) : List Row :=
  if ¬ enabled ∨ rows.length = 0 ∨ piiColumns.length = 0 then
    rows
  else
    rows.map (fun row => piiColumns.foldl applyRule row)

/-- Function `parseBool` from `src/lib/secure-report.ts`, lines 12-14; the argument
is `url.searchParams.get("anonymize")`, `null` when absent. -/
def parseBool (value : Option String) : Bool :=
  value == some "1" || value == some "true"

/-- The row post-processing performed by `withSecureReport`
(`src/lib/secure-report.ts`, lines 60-69): rows are anonymized with the
loaded rules, enabled exactly by `parseBool` of the request's `anonymize`
query parameter. -/
def secureReportRows (anonymizeParam : Option String) (rows : List Row)
    (piiColumns : List PiiColumnRule) : List Row :=
  anonymizeRowsWithRules rows piiColumns (parseBool anonymizeParam)

/-- A raw row of the stored `meta.pii_columns` table as returned by the
query in `getPiiColumnsForReport` (nullable text columns). -/
structure PiiRowRaw where
  column_name : Option String
  alternate_column : Option String
  redacted_value : Option String
  deriving DecidableEq, Repr

/-- Function `getPiiColumnsForReport` from `src/lib/anonymize.ts`, lines 42-68.
The stored table is passed as the list of rows the fixed query returns;
the report-route argument is kept to mirror the source signature
(`_reportRoute`), which never uses it. -/
def getPiiColumnsForReport (piiTable : List PiiRowRaw) (reportRoute : String) :
    List PiiColumnRule :=
  let _ := reportRoute
  (piiTable.map (fun row =>
    ({ column_name := jsTrim (row.column_name.getD "")
       alternate_column := row.alternate_column
       redacted_value := row.redacted_value } : PiiColumnRule))).filter
    (fun row => row.column_name.length > 0)

/-- Function `splitMultiValue` from the client sidebar source
(`src/unnamed/part_011`, lines 92-97): split on commas, trim each part,
drop empty parts. -/
def splitMultiValue (value : String) : List String :=
  ((jsSplitComma value).map (fun part => jsTrim part)).filter
    (fun part => part.length > 0)

/-- The csv-to-array transform as the claim words it: split the string on
commas and trim surrounding whitespace from each element (no other
change).  Stated from the spec, for comparison with `splitMultiValue`. -/
def csvToArraySpec (value : String) : List String :=
  (jsSplitComma value).map (fun part => jsTrim part)

/-! ### Secure execution wrapper (`src/lib/secure-report.ts`) -/

/-- Structure `AuthUser` from `src/lib/auth.ts` (the fields the wrapper reads). -/
structure AuthUser where
  sis_user_id : String
  is_admin : Bool
  deriving DecidableEq, Repr

/-- The values read back from the connection by the `current_setting`
query in `assertAuthedDbContext`: `current_setting(_, true)` yields SQL
`NULL` when the setting is absent, modelled as `none`. -/
structure ScopeReadBack where
  app_sis_user_id : Option String
  app_is_admin : Option String
  deriving DecidableEq, Repr

/-- The errors `assertAuthedDbContext` throws (each an `HttpError 500`
in the source, distinguished here by message). -/
inductive RlsError where
  | contextMissing
  | sisUserIdMismatch
  | isAdminMismatch
  deriving DecidableEq, Repr

/-- Function `assertAuthedDbContext` from `src/lib/secure-report.ts`, lines 16-43:
trim the read-back `app.sis_user_id`, interpret the read-back
`app.is_admin` as the literal string `"true"`, and fail closed on empty
or mismatching scope. -/
def assertAuthedDbContext (rb : ScopeReadBack) (user : AuthUser) :
    Except RlsError Unit :=
  let appSisUserId := jsTrim (rb.app_sis_user_id.getD "")
  let appIsAdmin := jsTrim (rb.app_is_admin.getD "") == "true"
  if appSisUserId = "" then
    Except.error RlsError.contextMissing
  else if appSisUserId ≠ user.sis_user_id then
    Except.error RlsError.sisUserIdMismatch
  else if appIsAdmin ≠ user.is_admin then
    Except.error RlsError.isAdminMismatch
  else
    Except.ok ()

/-- The control flow of `withSecureReport` (`src/lib/secure-report.ts`,
lines 63-82) around the scope assertion: `assertAuthedDbContext` runs
first and the report callback's result (`fnResult`) is produced only when
the assertion succeeds; a thrown assertion error propagates and no rows
are produced. -/
def withSecureReportScope {T : Type} (rb : ScopeReadBack) (user : AuthUser)
    (fnResult : T) : Except RlsError T :=
  match assertAuthedDbContext rb user with
  | Except.error e => Except.error e
  | Except.ok _ => Except.ok fnResult

/-! ### Database unit of work (`src/lib/db.ts`) -/

/-- Structure `DbContext` from `src/lib/db.ts`. -/
structure DbContext where
  sis_user_id : Option String
  is_admin : Bool
  deriving DecidableEq, Repr

/-- Observable actions of a unit of work on the pooled connection: a
`query text params` call or releasing the client back to the pool. -/
inductive DbOp where
  | query : String → List String → DbOp
  | release : DbOp
  deriving DecidableEq, Repr

/-- Function `withDbUserContext` from `src/lib/db.ts`, lines 24-43, embedded as a
trace semantics: the wrapped function is summarized by its outcome
(`fn : Except E T`, an exception or a value), and the embedding returns
the overall outcome together with the ordered trace of connection
operations (`BEGIN`, the two parameterized `set_config` calls, the
wrapped work, then `COMMIT` on success or `ROLLBACK` on a throw, and in
both cases the `finally` release). -/
def withDbUserContext {E T : Type} (context : DbContext) (fn : Except E T) :
    Except E T × List DbOp :=
  let scopeOps : List DbOp :=
    [DbOp.query "BEGIN" [],
     DbOp.query "SELECT set_config('app.sis_user_id', $1, true)"
       [context.sis_user_id.getD ""],
     DbOp.query "SELECT set_config('app.is_admin', $1, true)"
       [if context.is_admin then "true" else "false"]]
  match fn with
  | Except.ok v =>
      (Except.ok v, scopeOps ++ [DbOp.query "COMMIT" [], DbOp.release])
  | Except.error e =>
      (Except.error e, scopeOps ++ [DbOp.query "ROLLBACK" [], DbOp.release])

/-! ### Instructor-metrics report rows (`src/app/api/reports/instructor-metrics/route.ts`) -/

/-- JavaScript truthiness of a `string | null` value: `null` and the
empty string are falsy. -/
def truthy : Option String → Bool
  | none => false
  | some s => s ≠ ""

/-- The fixed part of the `getRows` SQL template before `${whereClause}`
(`src/app/api/reports/instructor-metrics/route.ts`, lines 78-99). -/
def getRowsSqlHead : String :=
  "\n    SELECT\n      im.sis_user_id,\n      u.first_name,\n      u.last_name,\n      im.academic_year,\n      im.program_code,\n      COALESCE(p.program_name, im.program_code) AS program_name,\n      im.assignments_graded,\n      im.average_score,\n      im.days_to_grade,\n      im.perc_graded_with_rubric,\n      im.num_replies_to_students,\n      im.days_to_reply,\n      im.credits_overseen,\n      im.credits_graded\n    FROM public.instructor_metrics im\n    LEFT JOIN public.users u\n      ON u.sis_user_id = im.sis_user_id\n    LEFT JOIN public.programs p\n      ON p.program_code = im.program_code\n    "

/-- The fixed part of the `getRows` SQL template after `${whereClause}`
(lines 99-101 of the route). -/
def getRowsSqlTail : String :=
  "\n    ORDER BY im.academic_year DESC, im.program_code, u.last_name NULLS LAST, u.first_name NULLS LAST, im.sis_user_id\n    "

/-- The query construction of `getRows`
(`src/app/api/reports/instructor-metrics/route.ts`, lines 59-103): each
truthy filter value is pushed onto `params` and contributes one clause
`<column> = $<params.length>`; the clauses are joined with `AND` behind
a single `WHERE` only when at least one exists.  Returns the emitted
text and the bound parameter list. -/
def getRowsQuery (academicYear programCode : Option String) :
    String × List String :=
  let params : List String := []
  let clauses : List String := []
  let (params, clauses) :=
    if truthy academicYear then
      let params := params ++ [academicYear.getD ""]
      (params, clauses ++ ["im.academic_year = $" ++ toString params.length])
    else
      (params, clauses)
  let (params, clauses) :=
    if truthy programCode then
      let params := params ++ [programCode.getD ""]
      (params, clauses ++ ["im.program_code = $" ++ toString params.length])
    else
      (params, clauses)
  let whereClause :=
    if clauses.length > 0 then "WHERE " ++ String.intercalate " AND " clauses
    else ""
  (getRowsSqlHead ++ whereClause ++ getRowsSqlTail, params)

/-- Number of occurrences of a character in a string (used to count the
`$n` placeholders: each emitted placeholder holds exactly one `$`, and
the fixed query text holds none). -/
def countChar (s : String) (c : Char) : Nat :=
  (s.data.filter (fun a => a = c)).length

/-- The `WHERE` clause of `getRowsQuery` as a function of the two
presence flags alone; used to state that the emitted text is independent
of the supplied filter values. -/
def getRowsWhereOfFlags : Bool → Bool → String
  | false, false => ""
  | true, false => "WHERE im.academic_year = $1"
  | false, true => "WHERE im.program_code = $1"
  | true, true => "WHERE im.academic_year = $1 AND im.program_code = $2"

/-- The full emitted text of `getRowsQuery` as a function of the two
presence flags alone. -/
def getRowsTextOfFlags (hasYear hasProgram : Bool) : String :=
  getRowsSqlHead ++ getRowsWhereOfFlags hasYear hasProgram ++ getRowsSqlTail

/-! ### Dependency-graph metadata schema (`src/tools/sql/meta_report_dependencies.sql`) -/

/-- One character of the identifier grammar body: `[a-z0-9_]`. -/
def isIdentChar (c : Char) : Bool :=
  ('a' ≤ c ∧ c ≤ 'z') ∨ ('0' ≤ c ∧ c ≤ '9') ∨ c = '_'

/-- The strict identifier pattern `^[a-z][a-z0-9_]*$` used by the format
CHECK constraints. -/
def matchesIdent (s : String) : Bool :=
  match s.data with
  | [] => false
  | c :: cs => (('a' ≤ c ∧ c ≤ 'z') : Bool) && cs.all isIdentChar

/-- A row of `meta.report_dependencies` (the columns the constraints and
views read). -/
structure DependencyRow where
  report_id : String
  source_alias : String
  source_schema : String
  source_name : String
  source_kind : String
  relation_role : String
  join_type : Option String
  join_to_alias : Option String
  join_priority : Int
  is_active : Bool
  deriving DecidableEq, Repr

/-- The conjunction of the CHECK constraints of
`meta.report_dependencies` (`meta_report_dependencies.sql`, lines 29-48):
source-kind, relation-role and join-type vocabularies, the base/join
shape, and the identifier format of `source_alias`, `source_schema`,
`source_name`. -/
def depRowCheck (d : DependencyRow) : Bool :=
  ["table", "view", "materialized_view"].contains d.source_kind
  && ["base", "join"].contains d.relation_role
  && (d.join_type == none
      || [some "inner", some "left", some "right", some "full", some "cross"].contains d.join_type)
  && matchesIdent d.source_alias
  && ((d.relation_role == "base" && d.join_type == none && d.join_to_alias == none)
      || (d.relation_role == "join" && d.join_type != none && d.join_to_alias != none))
  && matchesIdent d.source_schema
  && matchesIdent d.source_name

/-- A row of `meta.report_dependency_joins`. -/
structure JoinRow where
  dependency_id : Int
  left_alias : String
  left_column : String
  operator : String
  right_alias : String
  right_column : String
  predicate_order : Int
  is_active : Bool
  deriving DecidableEq, Repr

/-- The conjunction of the CHECK constraints of
`meta.report_dependency_joins` (lines 75-81): the operator vocabulary and
the identifier format of `left_column` and `right_column` (the schema
places no format constraint on `left_alias` or `right_alias`). -/
def joinRowCheck (j : JoinRow) : Bool :=
  ["=", "!=", ">", ">=", "<", "<="].contains j.operator
  && matchesIdent j.left_column
  && matchesIdent j.right_column

/-- A row of `meta.report_dependency_fields`. -/
structure FieldRow where
  report_id : String
  source_alias : String
  source_column : String
  output_key : String
  output_label : String
  data_type : String
  expression_type : String
  aggregate_fn : Option String
  output_order : Int
  is_active : Bool
  deriving DecidableEq, Repr

/-- The conjunction of the CHECK constraints of
`meta.report_dependency_fields` (lines 108-120): expression-type,
data-type and aggregate-function vocabularies and the identifier format
of `source_column` and `output_key` (no format constraint exists on
`source_alias`). -/
def fieldRowCheck (f : FieldRow) : Bool :=
  ["column", "aggregate"].contains f.expression_type
  && ["text", "number", "percent", "date", "boolean", "json"].contains f.data_type
  && (f.aggregate_fn == none
      || [some "count", some "sum", some "avg", some "min", some "max"].contains f.aggregate_fn)
  && matchesIdent f.source_column
  && matchesIdent f.output_key

/-- A row of `meta.report_dependency_filter_bindings`. -/
structure BindingRow where
  report_id : String
  filter_code : String
  source_alias : String
  source_column : String
  operator : String
  value_transform : String
  predicate_order : Int
  is_active : Bool
  deriving DecidableEq, Repr

/-- The conjunction of the CHECK constraints of
`meta.report_dependency_filter_bindings` (lines 145-152): operator and
value-transform vocabularies and the identifier format of
`source_column` (no format constraint exists on `source_alias`). -/
def bindingRowCheck (b : BindingRow) : Bool :=
  ["=", "!=", ">", ">=", "<", "<=", "in", "ilike"].contains b.operator
  && ["identity", "csv_to_array", "lowercase", "trim"].contains b.value_transform
  && matchesIdent b.source_column

/-- A row of `meta.report_dependency_grouping`. -/
structure GroupingRow where
  report_id : String
  output_key : String
  grouping_order : Int
  is_active : Bool
  deriving DecidableEq, Repr

/-- Table `meta.report_dependency_grouping` (lines 164-170) declares no CHECK
constraint at all, so every row is admitted. -/
def groupingRowCheck (_ : GroupingRow) : Bool :=
  true

/-- A row of `meta.report_dependency_sorting`. -/
structure SortingRow where
  report_id : String
  output_key : String
  sort_direction : String
  sort_order : Int
  is_active : Bool
  deriving DecidableEq, Repr

/-- The only CHECK constraint of `meta.report_dependency_sorting`
(lines 182-183): the sort direction vocabulary; `output_key` has no
format constraint. -/
def sortingRowCheck (s : SortingRow) : Bool :=
  ["asc", "desc"].contains s.sort_direction

/-! ### Graph loading (spec-modelled) -/

/-- The error the loader raises on a malformed graph. -/
inductive GraphLoadError where
  | graphIntegrity
  deriving DecidableEq, Repr

/-- An in-memory graph snapshot: the unique base node and the join
nodes. -/
structure Graph where
  base : DependencyRow
  joins : List DependencyRow
  deriving DecidableEq, Repr

/-- The active base rows of a report in the stored metadata. -/
def activeBaseRows (deps : List DependencyRow) (reportId : String) :
    List DependencyRow :=
  (deps.filter (fun d => d.report_id == reportId && d.is_active)).filter
    (fun d => d.relation_role == "base")

/-- Modelled from the spec: `loadActiveGraph(reportId) -> Graph` of §4.1
(no loader exists in the repository source; only the schema it reads
does).  Rows are filtered to `is_active = true` at load time; loading
fails closed with `GraphIntegrityError` if no base node is active or
more than one is, rather than silently picking one. -/
def loadActiveGraph (deps : List DependencyRow) (reportId : String) :
    Except GraphLoadError Graph :=
  let active := deps.filter (fun d => d.report_id == reportId && d.is_active)
  match active.filter (fun d => d.relation_role == "base") with
  | [b] =>
      Except.ok { base := b, joins := active.filter (fun d => d.relation_role == "join") }
  | _ => Except.error GraphLoadError.graphIntegrity

/-! ### Lineage views (`meta_report_dependencies.sql`, lines 225-243) -/

/-- A row of `meta.reports` (the columns the views read). -/
structure ReportRow where
  id : String
  route : String
  title : String
  category : String
  is_active : Bool
  deriving DecidableEq, Repr

/-- A row of the view `meta.v_report_table_usage`. -/
structure UsageRow where
  report_id : String
  route : String
  title : String
  category : String
  source_schema : String
  source_name : String
  source_alias : String
  source_kind : String
  relation_role : String
  join_type : Option String
  join_to_alias : Option String
  join_priority : Int
  deriving DecidableEq, Repr

/-- The output row of `meta.v_report_table_usage` built from a joined
report row and dependency row (its SELECT list). -/
def usageOf (r : ReportRow) (d : DependencyRow) : UsageRow :=
  { report_id := r.id
    route := r.route
    title := r.title
    category := r.category
    source_schema := d.source_schema
    source_name := d.source_name
    source_alias := d.source_alias
    source_kind := d.source_kind
    relation_role := d.relation_role
    join_type := d.join_type
    join_to_alias := d.join_to_alias
    join_priority := d.join_priority }

/-- The view `meta.v_report_table_usage`
(`meta_report_dependencies.sql`, lines 225-243): dependencies
inner-joined to reports on `r.id = d.report_id`, filtered to
`d.is_active AND r.is_active`. -/
def vReportTableUsage (reports : List ReportRow) (deps : List DependencyRow) :
    List UsageRow :=
  deps.flatMap (fun d =>
    (reports.filter (fun r => r.id == d.report_id && d.is_active && r.is_active)).map
      (fun r => usageOf r d))

/-- The lineage query "which reports use table `schema.table`?": the
usage view restricted to one schema/table, as in the example at the foot
of `meta_report_dependencies.sql`. -/
def reportsUsing (reports : List ReportRow) (deps : List DependencyRow)
    (sschema sname : String) : List UsageRow :=
  (vReportTableUsage reports deps).filter
    (fun u => u.source_schema == sschema && u.source_name == sname)

/-- Deactivate (set `is_active = false` on) every dependency row of a
report that names a given schema and table. -/
def deactivateDeps (deps : List DependencyRow) (rid sschema sname : String) :
    List DependencyRow :=
  deps.map (fun d =>
    if d.report_id == rid && d.source_schema == sschema && d.source_name == sname then
      { d with is_active := false }
    else d)

/-- Deactivate every report row with a given id. -/
def deactivateReport (reports : List ReportRow) (rid : String) :
    List ReportRow :=
  reports.map (fun r => if r.id == rid then { r with is_active := false } else r)

/-! ### Helper lemmas on the row model -/

theorem rowKeys_rowSet (row : Row) (t : String) (v : DVal) :
    rowKeys (rowSet row t v) = rowKeys row := by
  induction row with
  | nil => rfl
  | cons p ps ih =>
    simp only [rowSet, List.map_cons, rowKeys] at *
    by_cases h : p.1 == t <;> simp_all [rowKeys]

theorem rowHas_rowSet (row : Row) (t k : String) (v : DVal) :
    rowHas (rowSet row t v) k = rowHas row k := by
  induction row with
  | nil => rfl
  | cons p ps ih =>
    simp only [rowSet, rowHas, List.any_cons] at *
    by_cases h : p.1 == t <;> simp_all

theorem rowGet_cons (x : String × DVal) (xs : Row) (k : String) :
    rowGet (x :: xs) k = if x.1 == k then some x.2 else rowGet xs k := by
  simp only [rowGet, List.find?]
  by_cases h : x.1 == k <;> simp [h]

theorem rowHas_cons (x : String × DVal) (xs : Row) (k : String) :
    rowHas (x :: xs) k = (x.1 == k || rowHas xs k) := by
  simp [rowHas]

theorem rowSet_cons (x : String × DVal) (xs : Row) (t : String) (v : DVal) :
    rowSet (x :: xs) t v = (if x.1 == t then (x.1, v) else x) :: rowSet xs t v := by
  simp [rowSet]

theorem rowGet_rowSet (row : Row) (t k : String) (v : DVal) :
    rowGet (rowSet row t v) k =
      if k = t ∧ rowHas row t then some v else rowGet row k := by
  induction row with
  | nil => simp [rowGet, rowSet, rowHas]
  | cons p ps ih =>
    rw [rowSet_cons]
    by_cases h : p.1 == t
    · have ht : p.1 = t := by simpa using h
      rw [if_pos h, rowGet_cons, rowGet_cons, rowHas_cons]
      by_cases hk : k = t
      · have hpk : (p.1 == k) = true := by simp [ht, hk]
        simp [hpk, hk, h]
      · have hpk : (p.1 == k) = false := by simp [ht]; exact fun hh => hk hh.symm
        simp [hpk, hk, ih]
    · have ht : p.1 ≠ t := by simpa using h
      rw [if_neg h, rowGet_cons, rowGet_cons, rowHas_cons]
      by_cases hpk : p.1 == k
      · have hk : p.1 = k := by simpa using hpk
        have hkt : ¬ (k = t) := fun hh => ht (hk.trans hh)
        simp [hpk, hkt]
      · simp [hpk, ih, h]

theorem rowGet_isSome_of_rowHas (row : Row) (k : String)
    (h : rowHas row k = true) : ∃ v, rowGet row k = some v := by
  induction row with
  | nil => simp [rowHas] at h
  | cons p ps ih =>
    rw [rowHas_cons] at h
    rw [rowGet_cons]
    by_cases hp : p.1 == k
    · exact ⟨p.2, by simp [hp]⟩
    · simp only [hp, Bool.false_or] at h
      simp only [hp, if_neg]
      simpa using ih h

theorem applyRule_get (row : Row) (rule : PiiColumnRule) (k : String) :
    rowGet (applyRule row rule) k =
      if (jsTrim rule.column_name) ≠ "" ∧ rowHas row (jsTrim rule.column_name) = true
          ∧ k = (jsTrim rule.column_name) then
        (if jsTrim (rule.alternate_column.getD "") ≠ ""
            ∧ rowHas row (jsTrim (rule.alternate_column.getD "")) = true then
          rowGet row (jsTrim (rule.alternate_column.getD ""))
        else some (redactedDVal rule))
      else rowGet row k := by
  unfold applyRule
  by_cases h1 : ((jsTrim rule.column_name) == "") = true ∨ ¬ rowHas row (jsTrim rule.column_name) = true
  · rw [if_pos h1]
    have hcond : ¬ ((jsTrim rule.column_name) ≠ "" ∧ rowHas row (jsTrim rule.column_name) = true
        ∧ k = (jsTrim rule.column_name)) := by
      rcases h1 with h1 | h1
      · exact fun hc => hc.1 (by simpa using h1)
      · exact fun hc => h1 hc.2.1
    rw [if_neg hcond]
  · rw [if_neg h1]
    push_neg at h1
    have hne : (jsTrim rule.column_name) ≠ "" := by simpa using h1.1
    have hhas : rowHas row (jsTrim rule.column_name) = true := h1.2
    by_cases h2 : jsTrim (rule.alternate_column.getD "") ≠ ""
        ∧ rowHas row (jsTrim (rule.alternate_column.getD "")) = true
    · rw [if_pos h2, rowGet_rowSet]
      by_cases hk : k = (jsTrim rule.column_name)
      · rw [if_pos ⟨hk, hhas⟩, if_pos ⟨hne, hhas, hk⟩, if_pos h2]
        obtain ⟨v, hv⟩ := rowGet_isSome_of_rowHas row _ h2.2
        rw [hv]
        rfl
      · rw [if_neg (fun hc => hk hc.1), if_neg (fun hc => hk hc.2.2)]
    · rw [if_neg h2, rowGet_rowSet]
      by_cases hk : k = (jsTrim rule.column_name)
      · rw [if_pos ⟨hk, hhas⟩, if_pos ⟨hne, hhas, hk⟩, if_neg h2]
      · rw [if_neg (fun hc => hk hc.1), if_neg (fun hc => hk hc.2.2)]

theorem applyRule_keys (row : Row) (rule : PiiColumnRule) :
    rowKeys (applyRule row rule) = rowKeys row := by
  unfold applyRule
  by_cases h1 : ((jsTrim rule.column_name) == "") = true ∨ ¬ rowHas row (jsTrim rule.column_name) = true
  · rw [if_pos h1]
  · rw [if_neg h1]
    by_cases h2 : jsTrim (rule.alternate_column.getD "") ≠ ""
        ∧ rowHas row (jsTrim (rule.alternate_column.getD "")) = true
    · rw [if_pos h2]
      exact rowKeys_rowSet ..
    · rw [if_neg h2]
      exact rowKeys_rowSet ..

theorem foldl_applyRule_keys (rules : List PiiColumnRule) (row : Row) :
    rowKeys (rules.foldl applyRule row) = rowKeys row := by
  induction rules generalizing row with
  | nil => rfl
  | cons r rs ih => rw [List.foldl_cons, ih, applyRule_keys]

theorem foldl_applyRule_frame (rules : List PiiColumnRule) (row : Row) (k : String)
    (h : ∀ rule ∈ rules, (jsTrim rule.column_name) ≠ k) :
    rowGet (rules.foldl applyRule row) k = rowGet row k := by
  induction rules generalizing row with
  | nil => rfl
  | cons r rs ih =>
    rw [List.foldl_cons, ih _ (fun rule hr => h rule (List.mem_cons_of_mem _ hr))]
    rw [applyRule_get]
    have hk : ¬ (k = (jsTrim r.column_name)) :=
      fun hh => h r (List.mem_cons_self ..) hh.symm
    rw [if_neg (fun hc => hk hc.2.2)]

/-! ### Concrete rows used by counterexamples and witnesses -/

/-- A one-column row holding a secret value. -/
def cFrameRow : Row := [("a", DVal.vstr "secret")]

/-- A PII rule whose stored column name carries surrounding whitespace;
the masking code trims it before matching. -/
def cFrameRule : PiiColumnRule :=
  { column_name := " a ", alternate_column := none, redacted_value := none }

/-- A join-predicate row whose alias columns are not identifiers but
which satisfies every CHECK constraint of
`meta.report_dependency_joins`. -/
def cBadJoinRow : JoinRow :=
  { dependency_id := 1
    left_alias := "BAD ALIAS; DROP"
    left_column := "program_code"
    operator := "="
    right_alias := "1=1 OR "
    right_column := "program_code"
    predicate_order := 1
    is_active := true }

/-- A dependency row satisfying all CHECK constraints of
`meta.report_dependencies`. -/
def cGoodDepRow : DependencyRow :=
  { report_id := "r1"
    source_alias := "s"
    source_schema := "data"
    source_name := "student_exit_status"
    source_kind := "table"
    relation_role := "base"
    join_type := none
    join_to_alias := none
    join_priority := 100
    is_active := true }

/-- A join-predicate row satisfying all CHECK constraints of
`meta.report_dependency_joins`, with identifier aliases. -/
def cGoodJoinRow : JoinRow :=
  { dependency_id := 1
    left_alias := "p"
    left_column := "program_code"
    operator := "="
    right_alias := "s"
    right_column := "program_code"
    predicate_order := 1
    is_active := true }

/-- An output-field row satisfying all CHECK constraints of
`meta.report_dependency_fields`. -/
def cGoodFieldRow : FieldRow :=
  { report_id := "r1"
    source_alias := "s"
    source_column := "sis_user_id"
    output_key := "sis_user_id"
    output_label := "Student"
    data_type := "text"
    expression_type := "column"
    aggregate_fn := none
    output_order := 100
    is_active := true }

/-- A filter-binding row satisfying all CHECK constraints of
`meta.report_dependency_filter_bindings`. -/
def cGoodBindingRow : BindingRow :=
  { report_id := "r1"
    filter_code := "academic_year"
    source_alias := "s"
    source_column := "academic_year"
    operator := "="
    value_transform := "identity"
    predicate_order := 1
    is_active := true }

/-- An active report row used by the lineage witness. -/
def cReport : ReportRow :=
  { id := "r1"
    route := "yearly-graduates"
    title := "Yearly Graduates"
    category := "program"
    is_active := true }

end Analytics

open Analytics

/-- C8 (counterexample): the csv-to-array transform is not plain
split-and-trim on every caller-supplied string: on `"a,,b"` the code
(`splitMultiValue`) also drops the empty element, returning
`["a", "b"]` where split-and-trim returns `["a", "", "b"]`. -/
theorem splitMultiValue_counterexample :
    splitMultiValue "a,,b" ≠ csvToArraySpec "a,,b"
    ∧ csvToArraySpec "a,,b" = ["a", "", "b"]
    ∧ splitMultiValue "a,,b" = ["a", "b"] := by
  refine ⟨?_, ?_, ?_⟩ <;> decide

/-- C8 (amended): the csv-to-array transform splits on commas, trims
surrounding whitespace from each element, and drops elements that are
empty after trimming; in particular `"a, b ,c"` yields exactly
`["a", "b", "c"]`. -/
theorem splitMultiValue_correct :
    (∀ value : String,
      splitMultiValue value
        = (csvToArraySpec value).filter (fun part => part.length > 0))
    ∧ splitMultiValue "a, b ,c" = ["a", "b", "c"] := by
  exact ⟨fun value => rfl, by decide⟩

/-- C9: the PII rule set is independent of the report being served:
`getPiiColumnsForReport` returns the identical rule list for any two
report routes over the same stored `meta.pii_columns` table, because the
route argument is ignored. -/
theorem getPiiColumnsForReport_route_independent
    (piiTable : List PiiRowRaw) (route1 route2 : String) :
    getPiiColumnsForReport piiTable route1 = getPiiColumnsForReport piiTable route2 :=
  rfl

/-- C10 (counterexample): a key that is not the `column_name` of any rule
may still lose its original value, because the code matches on the
*trimmed* column name: with a rule whose `column_name` is `" a "`, the
key `"a"` (≠ `" a "`) is redacted to null. -/
theorem anonymize_frame_counterexample :
    cFrameRule.column_name ≠ "a"
    ∧ anonymizeRowsWithRules [cFrameRow] [cFrameRule] true = [[("a", DVal.vnull)]]
    ∧ rowGet cFrameRow "a" = some (DVal.vstr "secret") := by
  refine ⟨by decide, by decide, by decide⟩

/-- C10 (amended): `anonymizeRowsWithRules` returns a list of the same
length whose i-th row has exactly the keys of the i-th input row, and
every key that differs from the *trimmed* `column_name` of every rule
keeps its original value. -/
theorem anonymize_frame (rows : List Row) (rules : List PiiColumnRule)
    (enabled : Bool) :
    (anonymizeRowsWithRules rows rules enabled).length = rows.length
    ∧ (anonymizeRowsWithRules rows rules enabled).map rowKeys = rows.map rowKeys
    ∧ ∀ k : String, (∀ rule ∈ rules, (jsTrim rule.column_name) ≠ k) →
        (anonymizeRowsWithRules rows rules enabled).map (fun row => rowGet row k)
          = rows.map (fun row => rowGet row k) := by
  unfold anonymizeRowsWithRules
  by_cases h : ¬ enabled = true ∨ rows.length = 0 ∨ rules.length = 0
  · rw [if_pos h]
    exact ⟨rfl, rfl, fun k _ => rfl⟩
  · rw [if_neg h]
    refine ⟨by simp, ?_, ?_⟩
    · rw [List.map_map]
      apply List.map_congr_left
      intro row _
      exact foldl_applyRule_keys ..
    · intro k hk
      rw [List.map_map]
      apply List.map_congr_left
      intro row _
      exact foldl_applyRule_frame rules row k hk

/-- C10 (witness): the amended frame property applied to a concrete row,
rule and untouched key. -/
theorem anonymize_frame_witness :
    (anonymizeRowsWithRules [cFrameRow] [cFrameRule] true).map (fun row => rowGet row "b")
      = [cFrameRow].map (fun row => rowGet row "b") :=
  (anonymize_frame [cFrameRow] [cFrameRule] true).2.2 "b" (by decide)

/-- C4: rows served by the secure report wrapper are masked exactly when
the `anonymize` query parameter is `"1"` or `"true"`; when masking is
disabled, or the rule list or row list is empty, the rows are returned
unchanged; when enabled, each rule's trimmed target column present in a
row is replaced by the value of the rule's alternate column when that
(trimmed, nonempty) alternate exists in the row, and otherwise by the
rule's redacted value (null when it has none), all other keys being
read through unchanged. -/
theorem secureReport_masking (anonymizeParam : Option String) (rows : List Row)
    (rules : List PiiColumnRule) :
    (parseBool anonymizeParam = true
      ↔ (anonymizeParam = some "1" ∨ anonymizeParam = some "true"))
    ∧ secureReportRows anonymizeParam rows rules =
        (if parseBool anonymizeParam = true ∧ rows ≠ [] ∧ rules ≠ [] then
          rows.map (fun row => rules.foldl applyRule row)
        else rows)
    ∧ ∀ (row : Row) (rule : PiiColumnRule) (k : String),
        rowGet (applyRule row rule) k =
          if (jsTrim rule.column_name) ≠ "" ∧ rowHas row (jsTrim rule.column_name) = true
              ∧ k = (jsTrim rule.column_name) then
            (if jsTrim (rule.alternate_column.getD "") ≠ ""
                ∧ rowHas row (jsTrim (rule.alternate_column.getD "")) = true then
              rowGet row (jsTrim (rule.alternate_column.getD ""))
            else some (redactedDVal rule))
          else rowGet row k := by
  refine ⟨by simp [parseBool], ?_, fun row rule k => applyRule_get row rule k⟩
  unfold secureReportRows anonymizeRowsWithRules
  by_cases h : ¬ parseBool anonymizeParam = true ∨ rows.length = 0 ∨ rules.length = 0
  · rw [if_pos h, if_neg]
    rcases h with h | h | h
    · exact fun hc => h hc.1
    · exact fun hc => hc.2.1 (List.length_eq_zero.mp h)
    · exact fun hc => hc.2.2 (List.length_eq_zero.mp h)
  · rw [if_neg h, if_pos]
    push_neg at h
    exact ⟨h.1, fun hr => h.2.1 (by simp [hr]), fun hr => h.2.2 (by simp [hr])⟩

/-- C1: under the secure execution wrapper the access scope is read back
before the report callback runs; the callback result is produced exactly
when the trimmed read-back `app.sis_user_id` is nonempty and equals the
authenticated user's id and the read-back `app.is_admin` agrees with the
user's admin flag; otherwise an error is thrown and no rows are
produced. -/
theorem withSecureReport_failClosed (rb : ScopeReadBack) (user : AuthUser)
    (rows rows' : List Row) :
    (withSecureReportScope rb user rows = Except.ok rows' ↔
      (rows' = rows
        ∧ jsTrim (rb.app_sis_user_id.getD "") ≠ ""
        ∧ jsTrim (rb.app_sis_user_id.getD "") = user.sis_user_id
        ∧ (jsTrim (rb.app_is_admin.getD "") == "true") = user.is_admin))
    ∧ ((∃ e, withSecureReportScope rb user rows = Except.error e) ↔
        ¬ (jsTrim (rb.app_sis_user_id.getD "") ≠ ""
            ∧ jsTrim (rb.app_sis_user_id.getD "") = user.sis_user_id
            ∧ (jsTrim (rb.app_is_admin.getD "") == "true") = user.is_admin)) := by
  by_cases h1 : jsTrim (rb.app_sis_user_id.getD "") = ""
  · simp [withSecureReportScope, assertAuthedDbContext, h1]
  · by_cases h2 : jsTrim (rb.app_sis_user_id.getD "") = user.sis_user_id
    · have h1' : user.sis_user_id ≠ "" := h2 ▸ h1
      by_cases h3 : (jsTrim (rb.app_is_admin.getD "") == "true") = user.is_admin
      · simp [withSecureReportScope, assertAuthedDbContext, h1, h2, h3, h1']
        exact eq_comm
      · simp [withSecureReportScope, assertAuthedDbContext, h1, h2, h3, h1']
    · simp [withSecureReportScope, assertAuthedDbContext, h1, h2]

/-- C7: every database unit of work establishes the caller's scope via
parameterized `set_config` calls right after `BEGIN`; the wrapped
function's error is rethrown unchanged after `ROLLBACK` (no partial
result), its value is returned after `COMMIT`, and in both cases the
pooled connection is released last. -/
theorem withDbUserContext_unitOfWork {E T : Type} (context : DbContext)
    (fn : Except E T) :
    (withDbUserContext context fn).1 = fn
    ∧ (withDbUserContext context fn).2.take 3 =
        [DbOp.query "BEGIN" [],
         DbOp.query "SELECT set_config('app.sis_user_id', $1, true)"
           [context.sis_user_id.getD ""],
         DbOp.query "SELECT set_config('app.is_admin', $1, true)"
           [if context.is_admin then "true" else "false"]]
    ∧ (withDbUserContext context fn).2.getLast? = some DbOp.release
    ∧ (DbOp.query "COMMIT" [] ∈ (withDbUserContext context fn).2
        ↔ ∃ v, fn = Except.ok v)
    ∧ (DbOp.query "ROLLBACK" [] ∈ (withDbUserContext context fn).2
        ↔ ∃ e, fn = Except.error e) := by
  cases fn with
  | ok v =>
    refine ⟨rfl, rfl, rfl, ?_, ?_⟩ <;> simp [withDbUserContext]
  | error e =>
    refine ⟨rfl, rfl, rfl, ?_, ?_⟩ <;> simp [withDbUserContext]

set_option maxRecDepth 8192

/-- C5: the `getRows` query is fully parameterized: the emitted text is a
function of which filters are present alone (so no supplied value ever
appears inline), the parameter list is exactly the supplied values in
placeholder order, the number of `$` placeholders in the text equals the
length of the parameter list, and with no filter supplied the text is
the fixed head and tail with no WHERE clause between them. -/
theorem getRows_parameterization (academicYear programCode : Option String) :
    (getRowsQuery academicYear programCode).1
        = getRowsTextOfFlags (truthy academicYear) (truthy programCode)
    ∧ (getRowsQuery academicYear programCode).2
        = (if truthy academicYear then [academicYear.getD ""] else [])
            ++ (if truthy programCode then [programCode.getD ""] else [])
    ∧ countChar (getRowsQuery academicYear programCode).1 '$'
        = (getRowsQuery academicYear programCode).2.length
    ∧ getRowsTextOfFlags false false = getRowsSqlHead ++ getRowsSqlTail := by
  cases hay : truthy academicYear <;> cases hpc : truthy programCode <;>
    refine ⟨?_, ?_, ?_, rfl⟩ <;>
      simp only [getRowsQuery, getRowsTextOfFlags, getRowsWhereOfFlags, hay, hpc,
        if_true, if_false, Bool.false_eq_true, Bool.true_eq_false, ite_true, ite_false,
        List.nil_append, List.singleton_append, List.length_cons, List.length_nil,
        List.length_append] <;>
      rfl

/-- C2 (counterexample): the stored graph can hold a join-predicate row
whose `left_alias` and `right_alias` violate the identifier grammar:
`meta.report_dependency_joins` format-checks only the two column names,
so `cBadJoinRow` passes every CHECK constraint of its table. -/
theorem identifier_grammar_counterexample :
    joinRowCheck cBadJoinRow = true
    ∧ matchesIdent cBadJoinRow.left_alias = false
    ∧ matchesIdent cBadJoinRow.right_alias = false := by
  refine ⟨by decide, by decide, by decide⟩

/-- C2 (amended): the schema constrains to `^[a-z][a-z0-9_]*$` the source
alias, schema and table name of dependency rows, the left and right
column of join predicates, the source column and output key of output
fields, and the source column of filter bindings; the aliases referenced
by join predicates, the source aliases of fields and bindings, the
`join_to_alias` column, and grouping/sorting output keys are not
format-constrained. -/
theorem identifier_grammar_amended (d : DependencyRow) (j : JoinRow)
    (f : FieldRow) (b : BindingRow)
    (hd : depRowCheck d = true) (hj : joinRowCheck j = true)
    (hf : fieldRowCheck f = true) (hb : bindingRowCheck b = true) :
    matchesIdent d.source_alias = true
    ∧ matchesIdent d.source_schema = true
    ∧ matchesIdent d.source_name = true
    ∧ matchesIdent j.left_column = true
    ∧ matchesIdent j.right_column = true
    ∧ matchesIdent f.source_column = true
    ∧ matchesIdent f.output_key = true
    ∧ matchesIdent b.source_column = true := by
  simp only [depRowCheck, joinRowCheck, fieldRowCheck, bindingRowCheck,
    Bool.and_eq_true] at hd hj hf hb
  exact ⟨hd.1.1.1.2, hd.1.2, hd.2, hj.1.2, hj.2, hf.1.2, hf.2, hb.2⟩

/-- C2 (witness): the amended grammar guarantee evaluated on concrete
rows that satisfy their tables' CHECK constraints. -/
theorem identifier_grammar_amended_witness :
    matchesIdent cGoodDepRow.source_alias = true
    ∧ matchesIdent cGoodDepRow.source_schema = true
    ∧ matchesIdent cGoodDepRow.source_name = true
    ∧ matchesIdent cGoodJoinRow.left_column = true
    ∧ matchesIdent cGoodJoinRow.right_column = true
    ∧ matchesIdent cGoodFieldRow.source_column = true
    ∧ matchesIdent cGoodFieldRow.output_key = true
    ∧ matchesIdent cGoodBindingRow.source_column = true :=
  identifier_grammar_amended cGoodDepRow cGoodJoinRow cGoodFieldRow cGoodBindingRow
    (by decide) (by decide) (by decide) (by decide)

/-- C3: loading the active graph of a report succeeds exactly when the
stored metadata holds exactly one active base row for it, and fails with
`GraphIntegrityError` exactly when it holds zero or several (never
silently picking one). -/
theorem loadActiveGraph_single_base (deps : List DependencyRow) (reportId : String) :
    ((∃ g, loadActiveGraph deps reportId = Except.ok g)
      ↔ (activeBaseRows deps reportId).length = 1)
    ∧ (loadActiveGraph deps reportId = Except.error GraphLoadError.graphIntegrity
      ↔ (activeBaseRows deps reportId).length ≠ 1) := by
  cases h : (deps.filter (fun d => d.report_id == reportId && d.is_active)).filter
      (fun d => d.relation_role == "base") with
  | nil => simp [loadActiveGraph, activeBaseRows, h]
  | cons b t =>
    cases t with
    | nil => simp [loadActiveGraph, activeBaseRows, h]
    | cons b2 t2 => simp [loadActiveGraph, activeBaseRows, h]

theorem mem_reportsUsing (reports : List ReportRow) (deps : List DependencyRow)
    (s t : String) (u : UsageRow) :
    u ∈ reportsUsing reports deps s t ↔
      ∃ d ∈ deps, ∃ r ∈ reports, r.id = d.report_id ∧ d.is_active = true
        ∧ r.is_active = true ∧ u = usageOf r d
        ∧ d.source_schema = s ∧ d.source_name = t := by
  simp only [reportsUsing, vReportTableUsage, List.mem_filter, List.mem_flatMap,
    List.mem_map, Bool.and_eq_true, beq_iff_eq]
  constructor
  · rintro ⟨⟨d, hd, r, ⟨hr, ⟨hrid, hdact⟩, hract⟩, hueq⟩, hus, hut⟩
    subst hueq
    exact ⟨d, hd, r, hr, hrid, hdact, hract, rfl, hus, hut⟩
  · rintro ⟨d, hd, r, hr, hrid, hdact, hract, hueq, hds, hdt⟩
    subst hueq
    exact ⟨⟨d, hd, r, ⟨hr, ⟨hrid, hdact⟩, hract⟩, rfl⟩, hds, hdt⟩

theorem pairwise_id_unique {l : List ReportRow}
    (h : l.Pairwise (fun a b => a.id ≠ b.id)) {r R : ReportRow}
    (hr : r ∈ l) (hR : R ∈ l) (hid : r.id = R.id) : r = R := by
  by_contra hne
  have hsym : Symmetric (fun a b : ReportRow => a.id ≠ b.id) :=
    fun x y hxy he => hxy he.symm
  exact (List.Pairwise.forall hsym h hr hR hne) hid

/-- C6: the lineage view pairs a report with a schema and table exactly
when the report has an active dependency row naming them and is itself
active; deactivating those dependency rows, or the report, removes the
report from subsequent lineage results. -/
theorem lineage_usage (reports : List ReportRow) (deps : List DependencyRow)
    (R : ReportRow) (s t : String) (hR : R ∈ reports)
    (huniq : reports.Pairwise (fun a b => a.id ≠ b.id)) :
    ((∃ u ∈ reportsUsing reports deps s t, u.report_id = R.id)
      ↔ (R.is_active = true ∧ ∃ d ∈ deps, d.is_active = true
            ∧ d.report_id = R.id ∧ d.source_schema = s ∧ d.source_name = t))
    ∧ (∀ u ∈ reportsUsing reports (deactivateDeps deps R.id s t) s t,
        u.report_id ≠ R.id)
    ∧ (∀ u ∈ reportsUsing (deactivateReport reports R.id) deps s t,
        u.report_id ≠ R.id) := by
  refine ⟨⟨?_, ?_⟩, ?_, ?_⟩
  · rintro ⟨u, hu, huid⟩
    rw [mem_reportsUsing] at hu
    obtain ⟨d, hd, r, hr, hrid, hdact, hract, hueq, hds, hdt⟩ := hu
    have hrR : r = R := by
      apply pairwise_id_unique huniq hr hR
      rw [hueq] at huid
      exact huid
    subst hrR
    exact ⟨hract, d, hd, hdact, hrid.symm, hds, hdt⟩
  · rintro ⟨hract, d, hd, hdact, hdr, hds, hdt⟩
    refine ⟨usageOf R d, ?_, rfl⟩
    rw [mem_reportsUsing]
    exact ⟨d, hd, R, hR, hdr.symm, hdact, hract, rfl, hds, hdt⟩
  · intro u hu heq
    rw [mem_reportsUsing] at hu
    obtain ⟨d', hd', r, hr, hrid, hdact, hract, hueq, hds, hdt⟩ := hu
    have hdid : d'.report_id = R.id := by
      rw [← hrid]
      rw [hueq] at heq
      exact heq
    simp only [deactivateDeps, List.mem_map] at hd'
    obtain ⟨d0, hd0, hd0eq⟩ := hd'
    by_cases hcond : (d0.report_id == R.id && d0.source_schema == s
        && d0.source_name == t) = true
    · rw [if_pos hcond] at hd0eq
      rw [← hd0eq] at hdact
      simp at hdact
    · rw [if_neg hcond] at hd0eq
      subst hd0eq
      exact hcond (by simp [hdid, hds, hdt])
  · intro u hu heq
    rw [mem_reportsUsing] at hu
    obtain ⟨d, hd, r', hr', hrid, hdact, hract, hueq, hds, hdt⟩ := hu
    have hrid' : r'.id = R.id := by
      rw [hueq] at heq
      exact heq
    simp only [deactivateReport, List.mem_map] at hr'
    obtain ⟨r0, hr0, hr0eq⟩ := hr'
    by_cases hcond : (r0.id == R.id) = true
    · rw [if_pos hcond] at hr0eq
      rw [← hr0eq] at hract
      simp at hract
    · rw [if_neg hcond] at hr0eq
      subst hr0eq
      exact hcond (by simp [hrid'])

/-- C6 (witness): the lineage equivalence applied to a concrete active
report with one active base dependency on `data.student_exit_status`. -/
theorem lineage_usage_witness :
    ∃ u ∈ reportsUsing [cReport] [cGoodDepRow] "data" "student_exit_status",
      u.report_id = cReport.id :=
  (lineage_usage [cReport] [cGoodDepRow] cReport "data" "student_exit_status"
      (by simp) (by simp)).1.mpr
    ⟨rfl, cGoodDepRow, by simp, rfl, rfl, rfl, rfl⟩
